import Mathlib

/-!
Verification of the fee engine and transfer lifecycle of the xfer backend.

The Python source works on `decimal.Decimal` values; these are embedded as
exact rationals (`ℚ`).  `Decimal.quantize(Decimal('0.01'), ROUND_HALF_UP)` is
embedded as `quantizeCents` below.  (The 28-significant-digit Decimal context
is not modelled; all amounts in the claims are far below that precision.)
-/

namespace XferSpec

/-- `x.quantize(Decimal('0.01'), rounding=ROUND_HALF_UP)` from
`app/services/fee_service.py`: rounding to 2 decimal places, with ties
rounded away from zero (Python's `ROUND_HALF_UP`). -/
def quantizeCents (x : ℚ) : ℚ :=
  if 0 ≤ x then (⌊x * 100 + 1/2⌋ : ℚ) / 100
  else -((⌊(-x) * 100 + 1/2⌋ : ℚ) / 100)

/-- `FeeService.calculate_fee_amount` (fee_service.py lines 13-31). -/
def calculate_fee_amount (amount fee_percentage : ℚ) : ℚ :=
  if fee_percentage ≤ 0 then 0
  else quantizeCents (amount * fee_percentage / 100)

/-- `FeeService.calculate_amount_after_fee` (fee_service.py lines 33-48):
returns `(amount_after_fee, fee_amount)`. -/
def calculate_amount_after_fee (amount fee_percentage : ℚ) : ℚ × ℚ :=
  let fee_amount := calculate_fee_amount amount fee_percentage
  (amount - fee_amount, fee_amount)

/-- `FeeService.calculate_amount_with_fee` (fee_service.py lines 50-73):
reverse calculation, returns `(total_amount, fee_amount)`. -/
def calculate_amount_with_fee (net_amount fee_percentage : ℚ) : ℚ × ℚ :=
  if fee_percentage ≤ 0 then (net_amount, 0)
  else
    let fee_multiplier : ℚ := 1 - fee_percentage / 100
    let total_amount := quantizeCents (net_amount / fee_multiplier)
    (total_amount, total_amount - net_amount)

theorem abs_quantizeCents_sub_le (x : ℚ) : |quantizeCents x - x| ≤ 1/200 := by
  have key : ∀ y : ℚ, |(⌊y * 100 + 1/2⌋ : ℚ) / 100 - y| ≤ 1/200 := by
    intro y
    have h1 : (⌊y * 100 + 1/2⌋ : ℚ) ≤ y * 100 + 1/2 := Int.floor_le _
    have h2 : y * 100 + 1/2 < (⌊y * 100 + 1/2⌋ : ℚ) + 1 := Int.lt_floor_add_one _
    rw [abs_le]
    constructor <;> linarith
  unfold quantizeCents
  split
  · exact key x
  · have h := key (-x)
    have hrw : -((⌊(-x) * 100 + 1/2⌋ : ℚ) / 100) - x
        = -((⌊(-x) * 100 + 1/2⌋ : ℚ) / 100 - -x) := by ring
    rw [hrw, abs_neg]
    exact h

/-- C1: for every amount `a` and fee percentage `p`,
`calculate_amount_after_fee(a, p)` returns `(net, fee)` where
`fee = calculate_fee_amount(a, p)` which is the 2-decimal half-up rounding of
`a * p / 100` (exactly `0` when `p ≤ 0`), `net = a - fee`, and
`net + fee = a` exactly. -/
theorem C1_fee_net_invariant (a p : ℚ) :
    calculate_fee_amount a p
      = (if p ≤ 0 then (0:ℚ) else quantizeCents (a * p / 100))
    ∧ calculate_amount_after_fee a p
      = (a - calculate_fee_amount a p, calculate_fee_amount a p)
    ∧ (calculate_amount_after_fee a p).1 + (calculate_amount_after_fee a p).2 = a := by
  refine ⟨rfl, rfl, ?_⟩
  simp [calculate_amount_after_fee]

/-- C8: for every desired net amount and every fee percentage `0 ≤ p < 100`,
feeding the total produced by `calculate_amount_with_fee` back through
`calculate_amount_after_fee` reproduces the net amount and the fee within the
standard 2-decimal rounding tolerance of `0.01`. -/
theorem C8_reverse_round_trip (net p : ℚ) (hp0 : 0 ≤ p) (hp1 : p < 100) :
    |(calculate_amount_after_fee (calculate_amount_with_fee net p).1 p).1 - net| ≤ 1/100
    ∧ |(calculate_amount_after_fee (calculate_amount_with_fee net p).1 p).2
        - (calculate_amount_with_fee net p).2| ≤ 1/100 := by
  rcases le_or_lt p 0 with hple | hppos
  · -- degenerate case p = 0: exact round trip
    simp only [calculate_amount_with_fee, calculate_amount_after_fee,
      calculate_fee_amount, if_pos hple]
    norm_num
  · have hne : ¬ p ≤ 0 := not_le.mpr hppos
    set m : ℚ := 1 - p / 100 with hm
    have hmpos : 0 < m := by rw [hm]; linarith
    have hmle : m ≤ 1 := by rw [hm]; linarith
    set T : ℚ := quantizeCents (net / m) with hT
    have hwith : calculate_amount_with_fee net p = (T, T - net) := by
      rw [calculate_amount_with_fee, if_neg hne]
    set F : ℚ := quantizeCents (T * p / 100) with hF
    have hafter : calculate_amount_after_fee T p = (T - F, F) := by
      rw [calculate_amount_after_fee, calculate_fee_amount, if_neg hne]
    have hd1 : |T - net / m| ≤ 1/200 := abs_quantizeCents_sub_le (net / m)
    have hd2 : |F - T * p / 100| ≤ 1/200 := abs_quantizeCents_sub_le (T * p / 100)
    have hkey : |(T - F) - net| ≤ 1/100 := by
      have hsplit : (T - F) - net = (T - net / m) * m - (F - T * p / 100) := by
        field_simp
        ring
      rw [hsplit]
      calc |(T - net / m) * m - (F - T * p / 100)|
          ≤ |(T - net / m) * m| + |F - T * p / 100| := abs_sub _ _
        _ = |T - net / m| * |m| + |F - T * p / 100| := by rw [abs_mul]
        _ ≤ (1/200) * 1 + 1/200 := by
            have hmabs : |m| ≤ 1 := by rw [abs_of_pos hmpos]; exact hmle
            have h1 : |T - net / m| * |m| ≤ (1/200) * 1 :=
              mul_le_mul hd1 hmabs (abs_nonneg _) (by norm_num)
            linarith
        _ = 1/100 := by norm_num
    rw [hwith, hafter]
    constructor
    · exact hkey
    · have : F - (T - net) = -((T - F) - net) := by ring
      rw [this, abs_neg]
      exact hkey

/-- Witness for C8 at the spec's example: net `985.00`, fee percentage `1.50`. -/
theorem C8_reverse_round_trip_witness :
    (0:ℚ) ≤ 3/2 ∧ (3/2 : ℚ) < 100
    ∧ |(calculate_amount_after_fee (calculate_amount_with_fee 985 (3/2)).1 (3/2)).1 - 985| ≤ 1/100 :=
  ⟨by norm_num, by norm_num,
    (C8_reverse_round_trip 985 (3/2) (by norm_num) (by norm_num)).1⟩

/-! ### Binary floating point (for C10)

`PurchaseService.create_crypto_purchase` / `create_bank_purchase`
(purchase_service.py lines 49-69 and 147-160) persist `amount`,
`fee_amount` and `amount_after_fee` after passing them through Python's
`float(...)`, i.e. IEEE-754 binary64.  `toFloat64` computes the exact
rational value of the nearest binary64 (round to nearest, ties to even)
for the magnitudes that occur here (normal, non-overflowing values). -/

/-- Round a rational to the nearest integer, ties to even. -/
def roundHalfEven (x : ℚ) : ℤ :=
  let n := ⌊x⌋
  let f := x - n
  if f < 1/2 then n
  else if 1/2 < f then n + 1
  else if n % 2 = 0 then n else n + 1

/-- `⌊log₂ x⌋` for a positive rational: the unique `e` with `2^e ≤ x < 2^(e+1)`. -/
def intLog2 (x : ℚ) : ℤ :=
  if 1 ≤ x then (Nat.log2 ⌊x⌋.toNat : ℤ)
  else -(Nat.clog 2 (-⌊-(1/x)⌋).toNat : ℤ)

/-- Round a positive rational to 53 significant bits (nearest, ties to even). -/
def toFloat64Pos (x : ℚ) : ℚ :=
  let e := intLog2 x
  (roundHalfEven (x * (2:ℚ)^(52 - e)) : ℚ) * (2:ℚ)^(e - 52)

/-- The exact rational value of `float(x)`: the significand is rounded to 53
bits at the binade of `x` (round to nearest, ties to even). -/
def toFloat64 (x : ℚ) : ℚ :=
  if x = 0 then 0
  else if 0 < x then toFloat64Pos x
  else -(toFloat64Pos (-x))

/-- The three monetary fields of the row built by
`PurchaseService.create_crypto_purchase` (purchase_service.py lines 49-69):
`amount = float(amount)`, and `fee_amount` / `amount_after_fee` are the
`float(...)` values placed in the dict returned by
`FeeService.calculate_crypto_payment_fee` (fee_service.py lines 161-174),
which computes them exactly in `Decimal` via `calculate_amount_after_fee`.
Returns `(amount, fee_amount, amount_after_fee)` as stored. -/
def cryptoPurchaseStoredAmounts (amount fee_percentage : ℚ) : ℚ × ℚ × ℚ :=
  let fee_amount := (calculate_amount_after_fee amount fee_percentage).2
  let amount_after_fee := (calculate_amount_after_fee amount fee_percentage).1
  (toFloat64 amount, toFloat64 fee_amount, toFloat64 amount_after_fee)

theorem intLog2_eval_lt_one (x : ℚ) (h1 : ¬ 1 ≤ x) (c : ℕ) (hc : ((-⌊-(1/x)⌋ : ℤ)).toNat = c)
    (m : ℕ) (hm : Nat.clog 2 c = m) : intLog2 x = -(m : ℤ) := by
  rw [intLog2, if_neg h1, hc, hm]

theorem intLog2_eval_ge_one (x : ℚ) (h1 : 1 ≤ x) (c : ℕ) (hc : (⌊x⌋ : ℤ).toNat = c)
    (m : ℕ) (hm : Nat.log2 c = m) : intLog2 x = (m : ℤ) := by
  rw [intLog2, if_pos h1, hc, hm]

theorem roundHalfEven_eval_low (y : ℚ) (n : ℤ) (hfloor : ⌊y⌋ = n) (hlt : y - n < 1/2) :
    roundHalfEven y = n := by
  rw [roundHalfEven]
  simp only [hfloor]
  rw [if_pos hlt]

theorem toFloat64_eval_pos (x : ℚ) (hx0 : ¬ x = 0) (hx : 0 < x) (e : ℤ) (he : intLog2 x = e)
    (n : ℤ) (hn : roundHalfEven (x * (2:ℚ)^(52 - e)) = n) (v : ℚ)
    (hv : (n : ℚ) * (2:ℚ)^(e - 52) = v) : toFloat64 x = v := by
  rw [toFloat64, if_neg hx0, if_pos hx, toFloat64Pos, he, hn, hv]

theorem toFloat64_point_15 : toFloat64 (15/100) = 5404319552844595 / 36028797018963968 := by
  refine toFloat64_eval_pos _ (by norm_num) (by norm_num) (-3)
    (intLog2_eval_lt_one _ (by norm_num) 7
      (by rw [show ((-⌊-(1/(15/100:ℚ))⌋ : ℤ)) = 7 from by norm_num]; decide) 3
      (by simp [Nat.clog])) 5404319552844595
    (roundHalfEven_eval_low _ 5404319552844595 (by norm_num) (by norm_num)) _ (by norm_num)

theorem toFloat64_nine_95 : toFloat64 (995/100) = 5601352036542054 / 562949953421312 := by
  refine toFloat64_eval_pos _ (by norm_num) (by norm_num) 3
    (intLog2_eval_ge_one _ (by norm_num) 9
      (by rw [show (⌊(995:ℚ)/100⌋:ℤ) = 9 from by norm_num]; decide) 3
      (by simp [Nat.log2])) 5601352036542054
    (roundHalfEven_eval_low _ 5601352036542054 (by norm_num) (by norm_num)) _ (by norm_num)

theorem toFloat64_ten_10 : toFloat64 (101/10) = 5685794529555251 / 562949953421312 := by
  refine toFloat64_eval_pos _ (by norm_num) (by norm_num) 3
    (intLog2_eval_ge_one _ (by norm_num) 10
      (by rw [show (⌊(101:ℚ)/10⌋:ℤ) = 10 from by norm_num]; decide) 3
      (by simp [Nat.log2])) 5685794529555251
    (roundHalfEven_eval_low _ 5685794529555251 (by norm_num) (by norm_num)) _ (by norm_num)

/-- C10: the purchase creation flow computes fee and net exactly in `Decimal`
but persists the three monetary fields through `float(...)`, so the stored
fields are the binary64 images of the exact values, and in general the stored
fields do not satisfy `amount_after_fee + fee_amount = amount`: at amount
`10.10` with fee percentage `1.50` the stored net `float(9.95)` plus the
stored fee `float(0.15)` differs from the stored amount `float(10.10)`. -/
theorem C10_purchase_float_storage :
    (∀ a p : ℚ, cryptoPurchaseStoredAmounts a p
      = (toFloat64 a,
         toFloat64 ((calculate_amount_after_fee a p).2),
         toFloat64 ((calculate_amount_after_fee a p).1)))
    ∧ (cryptoPurchaseStoredAmounts (101/10) (3/2)).2.2
        + (cryptoPurchaseStoredAmounts (101/10) (3/2)).2.1
      ≠ (cryptoPurchaseStoredAmounts (101/10) (3/2)).1 := by
  constructor
  · intro a p
    rfl
  · have hfee : (calculate_amount_after_fee (101/10) (3/2)).2 = 15/100 := by
      show calculate_fee_amount (101/10) (3/2) = 15/100
      rw [calculate_fee_amount, if_neg (by norm_num), quantizeCents, if_pos (by norm_num)]
      norm_num
    have hnet : (calculate_amount_after_fee (101/10) (3/2)).1 = 995/100 := by
      show (101/10 : ℚ) - calculate_fee_amount (101/10) (3/2) = 995/100
      have : calculate_fee_amount (101/10) (3/2) = 15/100 := hfee
      rw [this]; norm_num
    show toFloat64 ((calculate_amount_after_fee (101/10) (3/2)).1)
        + toFloat64 ((calculate_amount_after_fee (101/10) (3/2)).2) ≠ toFloat64 (101/10)
    rw [hfee, hnet, toFloat64_point_15, toFloat64_nine_95, toFloat64_ten_10]
    norm_num

/-! ### Payment-method registry (admin wallets / admin bank accounts)

`app/api/v1/endpoints/admin_wallets.py` and
`app/api/v1/endpoints/admin_bank_accounts.py` are line-for-line parallel; the
model below embeds the wallet file and stands for both.  Name/currency/network
columns play no role in the primary-flag logic; the uniqueness key used by the
duplicate check (wallet address / bank account number) is modelled as the
numeric `address` field. -/

/-- One `AdminWallet` / `AdminBankAccount` row. -/
structure PMethod where
  id : Nat
  address : Nat
  fee_percentage : ℚ
  is_active : Bool
  is_primary : Bool

/-- The errors the registry endpoints raise. -/
inductive RegErr where
  | duplicateAddress
  | notFound
  | cannotUnsetPrimary
  | cannotDeleteOnly
deriving DecidableEq

/-- `update(AdminWallet).where(is_primary == True).values(is_primary=False)`. -/
def clearPrimary (ws : List PMethod) : List PMethod :=
  ws.map fun w => { w with is_primary := false }

/-- The `AdminWalletUpdate` payload restricted to the two fields that the
primary-flag logic reads (`exclude_unset` semantics: `none` = not supplied).
The other updatable columns (name, address, currency, network,
fee_percentage, notes) do not interact with this logic. -/
structure PMethodUpd where
  is_active : Option Bool := none
  is_primary : Option Bool := none

/-- The `setattr(wallet, field, value)` loop of `update_admin_wallet`. -/
def applyUpd (w : PMethod) (u : PMethodUpd) : PMethod :=
  { w with is_active := u.is_active.getD w.is_active,
           is_primary := u.is_primary.getD w.is_primary }

/-- `create_admin_wallet` (admin_wallets.py lines 36-71): duplicate-address
check; if the payload is primary, clear every other primary first; if the
registry is empty (the query is over all wallets, not only active ones),
force the new wallet to primary; append the new row. -/
def create_admin_wallet (ws : List PMethod) (data : PMethod) :
    Except RegErr (List PMethod) :=
  if ws.any (fun w => w.address == data.address) then .error .duplicateAddress
  else
    let ws1 := if data.is_primary then clearPrimary ws else ws
    .ok (ws1 ++ [{ data with is_primary := data.is_primary || ws.isEmpty }])

/-- `update_admin_wallet` (admin_wallets.py lines 93-139): on promoting to
primary, clear all other primaries; unsetting the primary flag is rejected
only when no other wallet at all exists (the emptiness check does not filter
by `is_active`); then the `setattr` loop applies the payload. -/
def update_admin_wallet (ws : List PMethod) (wid : Nat) (u : PMethodUpd) :
    Except RegErr (List PMethod) :=
  match ws.find? (fun w => w.id == wid) with
  | none => .error .notFound
  | some w =>
    let ws1 := if u.is_primary == some true && !w.is_primary then clearPrimary ws else ws
    if u.is_primary == some false && w.is_primary
        && (ws.filter fun v => v.id != wid).isEmpty then
      .error .cannotUnsetPrimary
    else
      .ok (ws1.map fun v => if v.id == wid then applyUpd v u else v)

/-- `delete_admin_wallet` (admin_wallets.py lines 142-180): deleting the
primary wallet is rejected when it is the only wallet; otherwise the first of
the remaining wallets (queried without an `is_active` filter) is promoted to
primary in the same operation. -/
def delete_admin_wallet (ws : List PMethod) (wid : Nat) :
    Except RegErr (List PMethod) :=
  match ws.find? (fun w => w.id == wid) with
  | none => .error .notFound
  | some w =>
    if w.is_primary then
      match ws.filter (fun v => v.id != wid) with
      | [] => .error .cannotDeleteOnly
      | o :: rest => .ok ({ o with is_primary := true } :: rest)
    else
      .ok (ws.filter fun v => v.id != wid)

/-- `set_primary_wallet` (admin_wallets.py lines 183-209): clear every
primary, then set the target. -/
def set_primary_wallet (ws : List PMethod) (wid : Nat) :
    Except RegErr (List PMethod) :=
  match ws.find? (fun w => w.id == wid) with
  | none => .error .notFound
  | some _ =>
    .ok ((clearPrimary ws).map fun v =>
      if v.id == wid then { v with is_primary := true } else v)

def primaryCount (ws : List PMethod) : Nat := ws.countP fun w => w.is_primary

def activeCount (ws : List PMethod) : Nat := ws.countP fun w => w.is_active

def activePrimaryCount (ws : List PMethod) : Nat :=
  ws.countP fun w => w.is_active && w.is_primary

/-- The four registry operations of the claim. -/
inductive RegOp where
  | create (data : PMethod)
  | update (wid : Nat) (u : PMethodUpd)
  | delete (wid : Nat)
  | setPrimary (wid : Nat)

def applyRegOp (ws : List PMethod) : RegOp → Except RegErr (List PMethod)
  | .create d => create_admin_wallet ws d
  | .update wid u => update_admin_wallet ws wid u
  | .delete wid => delete_admin_wallet ws wid
  | .setPrimary wid => set_primary_wallet ws wid

theorem primaryCount_clearPrimary (ws : List PMethod) : primaryCount (clearPrimary ws) = 0 := by
  rw [primaryCount, clearPrimary, List.countP_map]
  exact List.countP_eq_zero.mpr fun a _ => by simp

theorem countP_id_beq_le_one (ws : List PMethod) (wid : Nat)
    (hpw : ws.Pairwise fun a b => a.id ≠ b.id) :
    ws.countP (fun v => v.id == wid) ≤ 1 := by
  induction ws with
  | nil => simp
  | cons a l ih =>
    rw [List.pairwise_cons] at hpw
    obtain ⟨ha, hl⟩ := hpw
    rw [List.countP_cons]
    by_cases h : a.id = wid
    · have hzero : l.countP (fun v => v.id == wid) = 0 :=
        List.countP_eq_zero.mpr fun b hb => by
          have : a.id ≠ b.id := ha b hb
          simp only [beq_iff_eq]
          intro hb'
          exact this (h.trans hb'.symm)
      rw [hzero]
      simp [h]
    · rw [if_neg (by simp [h])]
      simpa using ih hl

theorem primaryCount_clear_assign_le (ws : List PMethod) (wid : Nat) (f : PMethod → PMethod)
    (hpw : ws.Pairwise fun a b => a.id ≠ b.id) :
    ((clearPrimary ws).map fun v => if v.id == wid then f v else v).countP
      (fun w => w.is_primary) ≤ 1 := by
  rw [clearPrimary, List.map_map, List.countP_map]
  refine le_trans (List.countP_mono_left fun v _ => ?_) (countP_id_beq_le_one ws wid hpw)
  simp only [Function.comp_apply]
  by_cases h : v.id = wid
  · simp [h]
  · intro hv
    exfalso
    rw [if_neg (by simp [h])] at hv
    simp at hv

theorem find?_id_unique (ws : List PMethod) (wid : Nat) (w : PMethod)
    (hpw : ws.Pairwise fun a b => a.id ≠ b.id)
    (hfind : ws.find? (fun v => v.id == wid) = some w) :
    ∀ v ∈ ws, v.id = wid → v = w := by
  induction ws with
  | nil => simp at hfind
  | cons a l ih =>
    rw [List.pairwise_cons] at hpw
    obtain ⟨ha, hl⟩ := hpw
    by_cases h : a.id = wid
    · rw [List.find?_cons_of_pos _ (by simp [h])] at hfind
      intro v hv hvid
      rcases List.mem_cons.mp hv with rfl | hvl
      · exact Option.some_injective _ hfind
      · exact absurd (h.trans hvid.symm) (ha v hvl)
    · rw [List.find?_cons_of_neg _ (by simp [h])] at hfind
      intro v hv hvid
      rcases List.mem_cons.mp hv with rfl | hvl
      · exact absurd hvid h
      · exact ih hl hfind v hvl hvid

theorem le_countP_of_two_mem {α : Type} (l : List α) (p : α → Bool) (a b : α)
    (ha : a ∈ l) (hb : b ∈ l) (hab : a ≠ b) (hpa : p a = true) (hpb : p b = true) :
    2 ≤ l.countP p := by
  rw [List.countP_eq_length_filter]
  have ha' : a ∈ l.filter p := List.mem_filter.mpr ⟨ha, hpa⟩
  have hb' : b ∈ l.filter p := List.mem_filter.mpr ⟨hb, hpb⟩
  match hl : l.filter p with
  | [] => rw [hl] at ha'; simp at ha'
  | [x] =>
    rw [hl] at ha' hb'
    exact absurd ((List.mem_singleton.mp ha').trans (List.mem_singleton.mp hb').symm) hab
  | x :: y :: t => simp [List.length_cons]

theorem countP_singleton_le_one {α : Type} (p : α → Bool) (x : α) : List.countP p [x] ≤ 1 := by
  rw [List.countP_cons, List.countP_nil]
  split <;> simp

theorem applyRegOp_primaryCount_le (ws : List PMethod) (op : RegOp) (ws' : List PMethod)
    (hpw : ws.Pairwise fun a b => a.id ≠ b.id) (hinv : primaryCount ws ≤ 1)
    (hok : applyRegOp ws op = .ok ws') : primaryCount ws' ≤ 1 := by
  cases op with
  | create d =>
    rw [applyRegOp, create_admin_wallet] at hok
    by_cases hdup : (ws.any fun w => w.address == d.address) = true
    · rw [if_pos hdup] at hok; cases hok
    · rw [if_neg hdup] at hok
      have hws' : ws' = (if d.is_primary then clearPrimary ws else ws)
          ++ [{ d with is_primary := d.is_primary || ws.isEmpty }] :=
        (Option.some_injective _ (congrArg Except.toOption hok)).symm
      subst hws'
      rw [primaryCount, List.countP_append]
      rw [primaryCount] at hinv
      by_cases hd : d.is_primary = true
      · rw [if_pos hd]
        have h0 := primaryCount_clearPrimary ws
        rw [primaryCount] at h0
        rw [h0]
        simpa using countP_singleton_le_one _ _
      · rw [if_neg hd]
        have hd' : d.is_primary = false := by revert hd; cases d.is_primary <;> simp
        cases hemp : ws.isEmpty
        · rw [List.countP_cons, List.countP_nil]
          simpa [hd'] using hinv
        · have hnil : ws = [] := List.isEmpty_iff.mp hemp
          subst hnil
          simpa using countP_singleton_le_one (fun w : PMethod => w.is_primary) _
  | update wid u =>
    rw [applyRegOp, update_admin_wallet] at hok
    cases hfind : ws.find? fun v => v.id == wid with
    | none => rw [hfind] at hok; cases hok
    | some w =>
      rw [hfind] at hok
      dsimp only [] at hok
      by_cases hrej : (u.is_primary == some false && w.is_primary
          && (ws.filter fun v => v.id != wid).isEmpty) = true
      · rw [if_pos hrej] at hok; cases hok
      · rw [if_neg hrej] at hok
        have hws' : ws' = (if u.is_primary == some true && !w.is_primary
            then clearPrimary ws else ws).map
              fun v => if v.id == wid then applyUpd v u else v :=
          (Option.some_injective _ (congrArg Except.toOption hok)).symm
        subst hws'
        by_cases hclear : (u.is_primary == some true && !w.is_primary) = true
        · rw [if_pos hclear]
          exact primaryCount_clear_assign_le ws wid _ hpw
        · rw [if_neg hclear]
          rw [primaryCount, List.countP_map]
          rcases hu : u.is_primary with _ | b
          · -- is_primary not in the payload: the flag of every row is unchanged
            have : ws.countP ((fun v => v.is_primary) ∘ fun v =>
                if v.id == wid then applyUpd v u else v) = primaryCount ws := by
              refine List.countP_congr fun v _ => ?_
              simp only [Function.comp_apply]
              by_cases h : v.id = wid
              · simp [h, applyUpd, hu]
              · simp [h]
            rw [this]; exact hinv
          · cases b
            · -- payload sets is_primary to false on the target
              refine le_trans (List.countP_mono_left fun v _ => ?_) hinv
              simp only [Function.comp_apply]
              by_cases h : v.id = wid
              · rw [if_pos (by simp [h])]
                simp [applyUpd, hu]
              · rw [if_neg (by simp [h])]
                exact id
            · -- payload sets is_primary to true, but the target was already primary
              have hwp : w.is_primary = true := by
                by_contra hwp
                rw [hu] at hclear
                exact hwp (by simpa using hclear)
              have huniq := find?_id_unique ws wid w hpw hfind
              have : ws.countP ((fun v => v.is_primary) ∘ fun v =>
                  if v.id == wid then applyUpd v u else v) = primaryCount ws := by
                refine List.countP_congr fun v hv => ?_
                simp only [Function.comp_apply]
                by_cases h : v.id = wid
                · have : v = w := huniq v hv h
                  subst this
                  simp [h, applyUpd, hu, hwp]
                · simp [h]
              rw [this]; exact hinv
  | delete wid =>
    rw [applyRegOp, delete_admin_wallet] at hok
    cases hfind : ws.find? fun v => v.id == wid with
    | none => rw [hfind] at hok; cases hok
    | some w =>
      rw [hfind] at hok
      dsimp only [] at hok
      have hwmem : w ∈ ws := List.mem_of_find?_eq_some hfind
      have hwid : w.id = wid := by simpa using List.find?_some hfind
      cases hwp : w.is_primary
      · rw [if_neg (by simp [hwp])] at hok
        have hws' : ws' = ws.filter fun v => v.id != wid :=
          (Option.some_injective _ (congrArg Except.toOption hok)).symm
        subst hws'
        exact le_trans (List.Sublist.countP_le _ (List.filter_sublist ws)) hinv
      · rw [if_pos hwp] at hok
        cases hfil : ws.filter fun v => v.id != wid with
        | nil => rw [hfil] at hok; cases hok
        | cons o rest =>
          rw [hfil] at hok
          have hws' : ws' = { o with is_primary := true } :: rest :=
            (Option.some_injective _ (congrArg Except.toOption hok)).symm
          subst hws'
          rw [primaryCount, List.countP_cons]
          have hzero : rest.countP (fun v => v.is_primary) = 0 := by
            have hsub : (o :: rest).countP (fun v => v.is_primary)
                = ws.countP (fun v => v.is_primary && (v.id != wid)) := by
              rw [← hfil, List.countP_filter]
            have houter : ws.countP (fun v => v.is_primary && (v.id != wid)) = 0 := by
              refine List.countP_eq_zero.mpr fun v hv hvp => ?_
              simp only [Bool.and_eq_true, bne_iff_ne, ne_eq] at hvp
              obtain ⟨hvprim, hvid⟩ := hvp
              have hvw : v ≠ w := fun h => hvid (by rw [h, hwid])
              have := le_countP_of_two_mem ws (fun v => v.is_primary) v w hv hwmem hvw
                hvprim hwp
              rw [primaryCount] at hinv
              omega
            have := hsub.trans houter
            rw [List.countP_cons] at this
            omega
          rw [hzero]
          simp
  | setPrimary wid =>
    rw [applyRegOp, set_primary_wallet] at hok
    cases hfind : ws.find? fun v => v.id == wid with
    | none => rw [hfind] at hok; cases hok
    | some w =>
      rw [hfind] at hok
      dsimp only [] at hok
      have hws' : ws' = (clearPrimary ws).map
          (fun v => if v.id == wid then { v with is_primary := true } else v) :=
        (Option.some_injective _ (congrArg Except.toOption hok)).symm
      subst hws'
      exact primaryCount_clear_assign_le ws wid _ hpw

theorem activePrimaryCount_le_primaryCount (ws : List PMethod) :
    activePrimaryCount ws ≤ primaryCount ws := by
  rw [activePrimaryCount, primaryCount]
  refine List.countP_mono_left fun v _ hv => ?_
  revert hv
  cases v.is_active <;> cases v.is_primary <;> simp

/-- C2 counterexample: the registry code checks emptiness and promotes
without filtering by `is_active`.  Reachable run: create an active wallet
(becomes primary by the bootstrap rule), create a second, inactive,
non-primary wallet, then update the first with `is_primary := false`.  The
update is accepted (the claim requires rejection, as no other *active*
instance exists), and afterwards one active instance exists while no active
instance is primary (the claim requires exactly one). -/
theorem C2_counterexample :
    create_admin_wallet [] ⟨1, 1, 0, true, false⟩ = .ok [⟨1, 1, 0, true, true⟩]
    ∧ create_admin_wallet [⟨1, 1, 0, true, true⟩] ⟨2, 2, 0, false, false⟩
      = .ok [⟨1, 1, 0, true, true⟩, ⟨2, 2, 0, false, false⟩]
    ∧ update_admin_wallet [⟨1, 1, 0, true, true⟩, ⟨2, 2, 0, false, false⟩] 1 ⟨none, some false⟩
      = .ok [⟨1, 1, 0, true, false⟩, ⟨2, 2, 0, false, false⟩]
    ∧ 0 < activeCount [⟨1, 1, 0, true, false⟩, ⟨2, 2, 0, false, false⟩]
    ∧ activePrimaryCount [⟨1, 1, 0, true, false⟩, ⟨2, 2, 0, false, false⟩] = 0 :=
  ⟨rfl, rfl, rfl, by decide, rfl⟩

/-- C2 (amended): after every create, update, set-primary and delete
operation, at most one instance is primary — counted over *all* instances,
active or not (hence also at most one active-and-primary instance) — given
distinct ids and at most one primary beforehand.  The `== 1` half of the
claimed invariant does not hold, and an update setting `is_primary := false`
on the sole primary is rejected exactly when no other instance *at all*
exists (not: no other active instance). -/
theorem C2_primary_invariant :
    (∀ (ws : List PMethod) (op : RegOp) (ws' : List PMethod),
        ws.Pairwise (fun a b => a.id ≠ b.id) → primaryCount ws ≤ 1 →
        applyRegOp ws op = .ok ws' →
        primaryCount ws' ≤ 1 ∧ activePrimaryCount ws' ≤ 1)
    ∧ ∀ (ws : List PMethod) (wid : Nat) (u : PMethodUpd) (w : PMethod),
        ws.find? (fun v => v.id == wid) = some w → w.is_primary = true →
        u.is_primary = some false → (ws.filter fun v => v.id != wid) = [] →
        update_admin_wallet ws wid u = .error .cannotUnsetPrimary := by
  constructor
  · intro ws op ws' hpw hinv hok
    have h := applyRegOp_primaryCount_le ws op ws' hpw hinv hok
    exact ⟨h, le_trans (activePrimaryCount_le_primaryCount ws') h⟩
  · intro ws wid u w hfind hwp hu hfil
    have hcond : (u.is_primary == some false && w.is_primary
        && (ws.filter fun v => v.id != wid).isEmpty) = true := by
      simp [hu, hwp, hfil]
    rw [update_admin_wallet, hfind]
    dsimp only []
    rw [if_pos hcond]

/-- Witness for C2 at concrete registries: a create step preserves the
at-most-one-primary bound, and unsetting the primary flag of the only wallet
is rejected. -/
theorem C2_primary_invariant_witness :
    primaryCount [(⟨1, 1, 0, true, true⟩ : PMethod)] ≤ 1
    ∧ update_admin_wallet [⟨2, 2, 0, true, true⟩] 2 ⟨none, some false⟩
      = .error .cannotUnsetPrimary :=
  ⟨(C2_primary_invariant.1 [] (.create ⟨1, 1, 0, true, false⟩) [⟨1, 1, 0, true, true⟩]
      (by simp) (by decide) rfl).1,
    C2_primary_invariant.2 [⟨2, 2, 0, true, true⟩] 2 ⟨none, some false⟩
      ⟨2, 2, 0, true, true⟩ rfl rfl rfl rfl⟩

/-- C9 counterexample: the bootstrap check `select(AdminWallet)` does not
filter by `is_active`.  Reachable run: create a wallet (bootstrap makes it
primary), deactivate it, then create a second wallet with
`is_primary = false`.  No active instance existed at that point, yet the new
wallet is persisted with `is_primary = false` (the claim requires `true`). -/
theorem C9_counterexample :
    create_admin_wallet [] ⟨1, 1, 0, true, false⟩ = .ok [⟨1, 1, 0, true, true⟩]
    ∧ update_admin_wallet [⟨1, 1, 0, true, true⟩] 1 ⟨some false, none⟩
      = .ok [⟨1, 1, 0, false, true⟩]
    ∧ activeCount [⟨1, 1, 0, false, true⟩] = 0
    ∧ create_admin_wallet [⟨1, 1, 0, false, true⟩] ⟨2, 2, 0, true, false⟩
      = .ok [⟨1, 1, 0, false, true⟩, ⟨2, 2, 0, true, false⟩]
    ∧ (⟨2, 2, 0, true, false⟩ : PMethod).is_primary = false :=
  ⟨rfl, rfl, rfl, rfl, rfl⟩

/-- C9 (amended): the bootstrap rule forces the new instance to primary
exactly when the registry holds no instance at all (active or inactive);
when any instance exists, a payload with `is_primary = false` is persisted
non-primary. -/
theorem C9_bootstrap_primary (data : PMethod) (h : data.is_primary = false) :
    create_admin_wallet [] data = .ok [{ data with is_primary := true }]
    ∧ ∀ ws : List PMethod, ws ≠ [] →
        (ws.any fun w => w.address == data.address) = false →
        create_admin_wallet ws data = .ok (ws ++ [data]) := by
  obtain ⟨i, ad, f, act, prim⟩ := data
  simp only at h
  subst h
  constructor
  · rfl
  · intro ws hne hdup
    have hemp : ws.isEmpty = false := by
      cases ws
      · exact absurd rfl hne
      · rfl
    rw [create_admin_wallet, hdup]
    simp [hemp]

/-- Witness for C9: creating the first-ever wallet with an explicit
`is_primary = false` still yields a primary wallet; with an (inactive,
non-primary) wallet already present, the same payload stays non-primary. -/
theorem C9_bootstrap_primary_witness :
    create_admin_wallet [] ⟨1, 1, 0, true, false⟩ = .ok [⟨1, 1, 0, true, true⟩]
    ∧ create_admin_wallet [⟨3, 3, 0, false, false⟩] ⟨1, 1, 0, true, false⟩
      = .ok [⟨3, 3, 0, false, false⟩, ⟨1, 1, 0, true, false⟩] :=
  ⟨(C9_bootstrap_primary ⟨1, 1, 0, true, false⟩ rfl).1,
    (C9_bootstrap_primary ⟨1, 1, 0, true, false⟩ rfl).2 [⟨3, 3, 0, false, false⟩]
      (by simp) rfl⟩

/-! ### Transfer records and the status lifecycle -/

/-- One element of the `status_history` JSON column (the dict literals built
in transfers.py).  The wall-clock `timestamp` string is not modelled. -/
structure HistEntry where
  from_status : Option String
  to_status : String
  changed_by : String
  changed_by_name : String
  message : String
  admin_remarks : Option String
  internal_notes : Option String

/-- The `TransferRequest` columns the claims read (models/transfer.py).
`status_history` is a nullable JSON column (`none` models SQL NULL);
`completed_at` records whether the completion timestamp has been stamped. -/
structure Transfer where
  status : String
  status_message : Option String
  status_history : Option (List HistEntry)
  processed_by : Option Nat
  completed_at : Bool
  notes : Option String
  amount : ℚ
  fee_amount : ℚ
  amount_after_fee : ℚ
  admin_wallet_id : Option Nat

/-- The status enum of `TransferUpdate.validate_status`
(schemas/transfer.py lines 81-88). -/
def validStatuses : List String :=
  ["pending", "processing", "on_hold", "completed", "failed", "cancelled", "refunded"]

/-- The restricted status list shared by `bulk_update_transfer_status`
(transfers.py line 587) and `PurchaseStatusUpdate.validate_status`
(purchases.py line 51). -/
def bulkValidStatuses : List String :=
  ["pending", "processing", "completed", "failed", "cancelled"]

/-- `TransferUpdate.validate_status`: the guard is
`if v and v not in valid_statuses: raise`, so a value is accepted when it is
falsy (the empty string) or in the enum. -/
def statusAccepted (v : String) : Bool :=
  if v != "" && !(validStatuses.contains v) then false else true

inductive TransferErr where
  | belowMinimum
  | aboveMaximum
  | allocationExceedsNet
deriving DecidableEq

/-- `create_transfer` (transfers.py lines 47-138).  Bounds come from
settings (`MINIMUM_TRANSFER_AMOUNT = 10.00`, `MAXIMUM_TRANSFER_AMOUNT =
50000.00`).  Wallet resolution is `FeeService.get_wallet_fee_info(db)` with
no wallet id — the primary active wallet; on its `ValueError` the handler
does not abort: it falls back to the settings fee
(`Decimal(str(0.01 * 100)) = 1` percent) with a null `admin_wallet_id`.
Destination allocations are validated by total only.  The rows the claims do
not read (currency, addresses, expiry) are omitted. -/
def create_transfer (wallets : List PMethod) (amount : ℚ) (allocations : List ℚ) :
    Except TransferErr Transfer :=
  if amount < 10 then .error .belowMinimum
  else if amount > 50000 then .error .aboveMaximum
  else
    let resolved := wallets.find? fun w => w.is_primary && w.is_active
    let fee_percentage := match resolved with
      | some w => w.fee_percentage
      | none => 1
    let net_fee := calculate_amount_after_fee amount fee_percentage
    if allocations ≠ [] ∧ net_fee.1 < allocations.sum then
      .error .allocationExceedsNet
    else
      .ok { status := "pending"
            status_message := none
            status_history := some [⟨none, "pending", "system", "System",
              "Transfer request created", none, none⟩]
            processed_by := none
            completed_at := false
            notes := none
            amount := amount
            fee_amount := net_fee.2
            amount_after_fee := net_fee.1
            admin_wallet_id := resolved.map fun w => w.id }

/-- The `TransferUpdate` payload fields that interact with the claims
(schemas/transfer.py lines 72-88); `none` = not supplied.  The remaining
payload fields (crypto_tx_hash, confirmation_count, processing_notes) only
feed the same `setattr` loop and touch columns no claim reads. -/
structure TransferUpd where
  status : Option String := none
  status_message : Option String := none
  admin_remarks : Option String := none
  internal_notes : Option String := none

inductive UpdErr where
  | invalidStatus
deriving DecidableEq

/-- The handler body of `update_transfer` (transfers.py lines 309-352):
normalise a NULL history to `[]`; when the new status is truthy and differs
from the old one, append a history entry, stamp `processed_by` and (for
`completed`) `completed_at`; the `setattr` loop applies every supplied
non-None payload field — including `status` itself even in the no-change
branch. -/
def update_transfer_body (t : Transfer) (upd : TransferUpd) (adminId : Nat)
    (adminName : String) : Transfer :=
  match upd.status with
  | some s =>
    if s != "" && s != t.status then
      { t with
        status := s
        status_message := upd.status_message <|> t.status_message
        status_history := some (t.status_history.getD [] ++
          [⟨some t.status, s, toString adminId, adminName,
            upd.status_message.getD
              ("Status changed from " ++ t.status ++ " to " ++ s),
            upd.admin_remarks, upd.internal_notes⟩])
        processed_by := some adminId
        completed_at := if s == "completed" then true else t.completed_at }
    else
      { t with
        status := s
        status_message := upd.status_message <|> t.status_message
        status_history := some (t.status_history.getD []) }
  | none =>
    { t with
      status_message := upd.status_message <|> t.status_message
      status_history := some (t.status_history.getD []) }

/-- `update_transfer` (transfers.py lines 286-373) as invoked over HTTP:
pydantic runs `TransferUpdate.validate_status` before the handler body. -/
def update_transfer (t : Transfer) (upd : TransferUpd) (adminId : Nat)
    (adminName : String) : Except UpdErr Transfer :=
  match upd.status with
  | some s =>
    if statusAccepted s then .ok (update_transfer_body t upd adminId adminName)
    else .error .invalidStatus
  | none => .ok (update_transfer_body t upd adminId adminName)

/-- The errors of `bulk_update_transfer_status` (transfers.py lines
586-604).  In the source both `raise HTTPException(status_code=
status.HTTP_400_BAD_REQUEST, ...)` and the 404 variant crash with
`AttributeError` instead, because the `str` parameter `status` shadows the
imported fastapi `status` module inside the handler. -/
inductive BulkErr where
  | attributeErrorOnInvalidStatus
  | attributeErrorOnNotFound
deriving DecidableEq

/-- `bulk_update_transfer_status` (transfers.py lines 576-630): validates
the status against the restricted list, then sets `status`,
`status_message` (only when truthy), `processed_by` and (for `completed`)
`completed_at` on every selected transfer — without appending any
`status_history` entry. -/
def bulk_update_transfer_status (ts : List Transfer) (status : String)
    (status_message : Option String) (adminId : Nat) : Except BulkErr (List Transfer) :=
  if !(bulkValidStatuses.contains status) then .error .attributeErrorOnInvalidStatus
  else if ts.isEmpty then .error .attributeErrorOnNotFound
  else .ok (ts.map fun t =>
    { t with
      status := status
      status_message := match status_message with
        | some m => if m != "" then some m else t.status_message
        | none => t.status_message
      processed_by := some adminId
      completed_at := if status == "completed" then true else t.completed_at })

/-- `PurchaseService.update_purchase_status` (purchase_service.py lines
235-296): sets `status` with no validation, appends admin notes to `notes`,
and appends no `status_history` entry. -/
def update_purchase_status (t : Transfer) (status : String)
    (admin_notes : Option String) : Transfer :=
  { t with
    status := status
    notes := match admin_notes with
      | some m =>
        if m != "" then
          some (if (t.notes.getD "") != "" then
              t.notes.getD "" ++ "\n[Admin] " ++ m
            else "[Admin] " ++ m)
        else t.notes
      | none => t.notes }

/-- The `status_history` invariant of the claim: non-empty history whose
last entry's `to_status` matches the record's `status` and whose first
entry's `from_status` is null. -/
def histInv (t : Transfer) : Prop :=
  t.status_history.getD [] ≠ []
  ∧ ((t.status_history.getD []).getLast?.map fun e => e.to_status) = some t.status
  ∧ ((t.status_history.getD []).head?.map fun e => e.from_status) = some none

/-- Fold a sequence of admin status updates over a transfer, each given as
(payload, admin id, admin name); a rejected update leaves the record
untouched. -/
def apply_updates (t : Transfer) : List (TransferUpd × Nat × String) → Transfer
  | [] => t
  | (u, a, n) :: rest =>
    apply_updates (match update_transfer t u a n with
      | .ok t' => t'
      | .error _ => t) rest

/-- The genesis history entry written by `create_transfer`. -/
def genesisEntry : HistEntry :=
  ⟨none, "pending", "system", "System", "Transfer request created", none, none⟩

/-- The admin wallet used in the concrete scenarios: fee 1.50 %. -/
def walletW : PMethod := ⟨1, 1, 3/2, true, true⟩

/-- The record `create_transfer` builds for amount 1000.00 at fee 1.50 %. -/
def transfer1000 : Transfer :=
  ⟨"pending", none, some [genesisEntry], none, false, none, 1000, 15, 985, some 1⟩

/-- The record `create_transfer` builds for amount 100.00 under the
settings fallback (1 %, no wallet). -/
def transfer100fb : Transfer :=
  ⟨"pending", none, some [genesisEntry], none, false, none, 100, 1, 99, none⟩

theorem create_transfer_1000_eval : create_transfer [walletW] 1000 [] = .ok transfer1000 := by
  norm_num [create_transfer, walletW, transfer1000, genesisEntry,
    calculate_amount_after_fee, calculate_fee_amount, quantizeCents]

theorem create_transfer_100_fallback_eval : create_transfer [] 100 [] = .ok transfer100fb := by
  norm_num [create_transfer, transfer100fb, genesisEntry,
    calculate_amount_after_fee, calculate_fee_amount, quantizeCents]

/-- C3 counterexample: a transfer created by `create_transfer` (status
`pending`, genesis history) and then bulk-updated to `processing` ends with
`status = "processing"` while the last — and only — history entry still has
`to_status = "pending"`: `bulk_update_transfer_status` changes the status
field without appending a history entry. -/
theorem C3_counterexample :
    create_transfer [walletW] 1000 [] = .ok transfer1000
    ∧ bulk_update_transfer_status [transfer1000] "processing" none 7
      = .ok [{ transfer1000 with status := "processing", processed_by := some 7 }]
    ∧ ({ transfer1000 with status := "processing", processed_by := some 7 } : Transfer).status
      = "processing"
    ∧ ((({ transfer1000 with status := "processing", processed_by := some 7 } : Transfer
        ).status_history.getD []).getLast?.map fun e => e.to_status) = some "pending"
    ∧ ¬ histInv { transfer1000 with status := "processing", processed_by := some 7 } :=
  ⟨create_transfer_1000_eval, rfl, rfl, rfl, by
    simp [histInv, transfer1000, genesisEntry]⟩

theorem update_transfer_preserves_histInv (t : Transfer) (u : TransferUpd) (a : Nat)
    (n : String) (t' : Transfer) (hinv : histInv t) (hne : u.status ≠ some "")
    (hok : update_transfer t u a n = .ok t') : histInv t' := by
  obtain ⟨hinv1, hinv2, hinv3⟩ := hinv
  rw [update_transfer] at hok
  cases hu : u.status with
  | none =>
    rw [hu] at hok
    dsimp only [] at hok
    have ht' : t' = update_transfer_body t u a n :=
      (Option.some_injective _ (congrArg Except.toOption hok)).symm
    subst ht'
    rw [update_transfer_body, hu]
    dsimp only []
    exact ⟨by simpa using hinv1, by simpa using hinv2, by simpa using hinv3⟩
  | some s =>
    rw [hu] at hok
    dsimp only [] at hok
    have hsne : s ≠ "" := fun h => hne (h ▸ hu)
    by_cases hacc : statusAccepted s = true
    · rw [if_pos hacc] at hok
      have ht' : t' = update_transfer_body t u a n :=
        (Option.some_injective _ (congrArg Except.toOption hok)).symm
      subst ht'
      rw [update_transfer_body, hu]
      dsimp only []
      by_cases hst : s = t.status
      · have hcond : (s != "" && s != t.status) = false := by simp [hst]
        rw [hcond, if_neg (by simp)]
        exact ⟨by simpa using hinv1, by simpa [hst] using hinv2, by simpa using hinv3⟩
      · have hcond : (s != "" && s != t.status) = true := by simp [hsne, hst]
        rw [hcond, if_pos rfl]
        refine ⟨by simp, ?_, ?_⟩
        · simp [List.getLast?_concat]
        · have hhd : (t.status_history.getD []).head?.map (fun e => e.from_status)
              = some none := hinv3
          simp only [Option.getD_some, List.head?_append]
          cases hhdval : (t.status_history.getD []).head? with
          | none => exact absurd (List.head?_eq_none_iff.mp hhdval) hinv1
          | some e =>
            rw [hhdval] at hhd
            simpa using hhd
    · rw [if_neg hacc] at hok
      cases hok

/-- C3 (amended): the claimed invariant — non-empty history, last entry's
`to_status` equal to `status`, first entry's `from_status` null — holds
after `create_transfer` and is preserved by any sequence of `update_transfer`
calls whose payload status is not the empty string.  It is *not* preserved
by `bulk_update_transfer_status` or `PurchaseService.update_purchase_status`,
which set `status` without appending a history entry, nor by the purchase
creation flow, which writes no genesis entry. -/
theorem C3_history_invariant :
    (∀ (ws : List PMethod) (amount : ℚ) (allocs : List ℚ) (t : Transfer),
        create_transfer ws amount allocs = .ok t → histInv t)
    ∧ ∀ (us : List (TransferUpd × Nat × String)) (t : Transfer),
        histInv t → (∀ u ∈ us, u.1.status ≠ some "") →
        histInv (apply_updates t us) := by
  constructor
  · intro ws amount allocs t hok
    rw [create_transfer] at hok
    by_cases h1 : amount < 10
    · rw [if_pos h1] at hok; cases hok
    · rw [if_neg h1] at hok
      by_cases h2 : amount > 50000
      · rw [if_pos h2] at hok; cases hok
      · rw [if_neg h2] at hok
        dsimp only [] at hok
        by_cases h3 : allocs ≠ [] ∧
            (calculate_amount_after_fee amount (match ws.find? fun w =>
              w.is_primary && w.is_active with
                | some w => w.fee_percentage
                | none => 1)).1 < allocs.sum
        · rw [if_pos h3] at hok; cases hok
        · rw [if_neg h3] at hok
          have ht := (Option.some_injective _ (congrArg Except.toOption hok)).symm
          subst ht
          exact ⟨by simp, rfl, rfl⟩
  · intro us
    induction us with
    | nil => intro t hinv _; exact hinv
    | cons hd rest ih =>
      intro t hinv hne
      obtain ⟨u, a, n⟩ := hd
      rw [apply_updates]
      refine ih _ ?_ fun v hv => hne v (by simp [hv])
      cases hres : update_transfer t u a n with
      | ok t' =>
        exact update_transfer_preserves_histInv t u a n t' hinv
          (hne (u, a, n) (by simp)) hres
      | error e => exact hinv

/-- Witness for C3: the freshly created transfer satisfies the invariant,
and it still does after an `update_transfer` to `processing`. -/
theorem C3_history_invariant_witness :
    histInv transfer1000
    ∧ histInv (apply_updates transfer1000 [(⟨some "processing", none, none, none⟩, 7, "Admin")]) :=
  ⟨C3_history_invariant.1 [walletW] 1000 [] transfer1000 create_transfer_1000_eval,
    C3_history_invariant.2 [(⟨some "processing", none, none, none⟩, 7, "Admin")] transfer1000
      (C3_history_invariant.1 [walletW] 1000 [] transfer1000 create_transfer_1000_eval)
      (by decide)⟩

/-- C4 counterexample: with no active primary wallet configured (empty
registry), `create_transfer` does not abort and does not propagate any
resolution error — it creates the record using the settings fallback
(fee 1 %, `admin_wallet_id` null). -/
theorem C4_counterexample :
    ([] : List PMethod).find? (fun w => w.is_primary && w.is_active) = none
    ∧ create_transfer [] 100 [] = .ok transfer100fb
    ∧ transfer100fb.admin_wallet_id = none
    ∧ transfer100fb.fee_amount = 1 :=
  ⟨rfl, create_transfer_100_fallback_eval, rfl, rfl⟩

/-- C4 (amended): when wallet resolution finds no active primary wallet,
`create_transfer` swallows the resolution failure and falls back to the
settings: fee percentage 1 (from `TRANSFER_FEE_PERCENTAGE * 100`), null
`admin_wallet_id`, and the record is created.  (`create_transfer` never
consults an explicit payment-method id at all.) -/
theorem C4_fallback_behavior (ws : List PMethod) (amount : ℚ)
    (hres : ws.find? (fun w => w.is_primary && w.is_active) = none)
    (h1 : ¬ amount < 10) (h2 : ¬ amount > 50000) :
    create_transfer ws amount [] = .ok
      { status := "pending", status_message := none,
        status_history := some [genesisEntry], processed_by := none,
        completed_at := false, notes := none, amount := amount,
        fee_amount := calculate_fee_amount amount 1,
        amount_after_fee := amount - calculate_fee_amount amount 1,
        admin_wallet_id := none } := by
  rw [create_transfer, if_neg h1, if_neg h2, hres]
  dsimp only []
  rw [if_neg (by simp)]
  rfl

/-- Witness for C4 at amount 100 and an empty registry. -/
theorem C4_fallback_behavior_witness :
    create_transfer [] 100 [] = .ok
      { status := "pending", status_message := none,
        status_history := some [genesisEntry], processed_by := none,
        completed_at := false, notes := none, amount := 100,
        fee_amount := calculate_fee_amount 100 1,
        amount_after_fee := 100 - calculate_fee_amount 100 1,
        admin_wallet_id := none } :=
  C4_fallback_behavior [] 100 rfl (by norm_num) (by norm_num)

/-- C5: with a resolved wallet, an allocation list whose total exceeds the
net amount is rejected with the allocation error and no record is produced;
a total equal to the net amount passes and the record carries that net
amount. -/
theorem C5_allocation_validation (ws : List PMethod) (w : PMethod) (amount : ℚ)
    (allocs : List ℚ) (hres : ws.find? (fun v => v.is_primary && v.is_active) = some w)
    (h1 : ¬ amount < 10) (h2 : ¬ amount > 50000) (hne : allocs ≠ []) :
    (amount - calculate_fee_amount amount w.fee_percentage < allocs.sum →
      create_transfer ws amount allocs = .error .allocationExceedsNet)
    ∧ (allocs.sum = amount - calculate_fee_amount amount w.fee_percentage →
      ∃ t, create_transfer ws amount allocs = .ok t
        ∧ t.amount_after_fee = allocs.sum
        ∧ t.fee_amount = calculate_fee_amount amount w.fee_percentage) := by
  constructor
  · intro hgt
    rw [create_transfer, if_neg h1, if_neg h2, hres]
    dsimp only []
    rw [if_pos ⟨hne, hgt⟩]
  · intro hsum
    rw [create_transfer, if_neg h1, if_neg h2, hres]
    dsimp only []
    rw [if_neg (fun h => absurd (hsum ▸ h.2) (lt_irrefl _))]
    exact ⟨_, rfl, hsum.symm, rfl⟩

/-- Witness for C5 at the spec's example: amount 1000.00, fee 1.50 %
(net 985.00); allocations totalling 990.00 are rejected, allocations
totalling 985.00 succeed. -/
theorem C5_allocation_validation_witness :
    create_transfer [walletW] 1000 [500, 490] = .error .allocationExceedsNet
    ∧ ∃ t, create_transfer [walletW] 1000 [500, 485] = .ok t
        ∧ t.amount_after_fee = ([500, 485] : List ℚ).sum
        ∧ t.fee_amount = calculate_fee_amount 1000 walletW.fee_percentage :=
  ⟨(C5_allocation_validation [walletW] walletW 1000 [500, 490] rfl
      (by norm_num) (by norm_num) (by simp)).1
      (by norm_num [walletW, calculate_fee_amount, quantizeCents]),
    (C5_allocation_validation [walletW] walletW 1000 [500, 485] rfl
      (by norm_num) (by norm_num) (by simp)).2
      (by norm_num [walletW, calculate_fee_amount, quantizeCents])⟩

/-- C6, evaluated at the failing input: the empty string is outside the
status enum, yet `TransferUpdate.validate_status` accepts it (its guard
`if v and v not in valid_statuses` skips falsy values) and `update_transfer`
then mutates the record's status to `""` with no rejection.  Separately,
`bulk_update_transfer_status` does reject out-of-enum values before any
mutation, but the raise crashes with `AttributeError` (the `status` string
parameter shadows the fastapi `status` module) instead of the intended
invalid-status error. -/
theorem C6_code_bug_evaluation :
    ¬ ("" ∈ validStatuses)
    ∧ statusAccepted "" = true
    ∧ update_transfer transfer1000 ⟨some "", none, none, none⟩ 7 "Admin"
      = .ok { transfer1000 with status := "" }
    ∧ bulk_update_transfer_status [transfer1000] "bogus" none 7
      = .error .attributeErrorOnInvalidStatus :=
  ⟨by decide, rfl, rfl, rfl⟩

/-- C7: re-submitting a transfer's current (valid) status is accepted and is
a no-op: no history entry is appended, `processed_by` and `completed_at` are
untouched, and repeating the call returns the very same record. -/
theorem C7_noop_resubmission (t : Transfer) (upd : TransferUpd) (adminId : Nat)
    (adminName : String) (hval : t.status ∈ validStatuses)
    (hs : upd.status = some t.status) :
    ∃ t', update_transfer t upd adminId adminName = .ok t'
      ∧ t'.status = t.status
      ∧ t'.status_history.getD [] = t.status_history.getD []
      ∧ t'.processed_by = t.processed_by
      ∧ t'.completed_at = t.completed_at
      ∧ update_transfer t' upd adminId adminName = .ok t' := by
  have hacc : statusAccepted t.status = true := by
    rw [statusAccepted]
    have hcont : validStatuses.contains t.status = true := List.elem_iff.mpr hval
    simp only [hcont]
    simp [Or.inr hval]
  have hcond : (t.status != "" && t.status != t.status) = false := by simp
  refine ⟨{ t with
      status := t.status
      status_message := upd.status_message <|> t.status_message
      status_history := some (t.status_history.getD []) }, ?_, rfl, by simp, rfl, rfl, ?_⟩
  · rw [update_transfer, hs]
    dsimp only []
    rw [if_pos hacc, update_transfer_body, hs]
    dsimp only []
    rw [hcond, if_neg (by simp)]
  · rw [update_transfer, hs]
    dsimp only []
    rw [if_pos hacc, update_transfer_body, hs]
    dsimp only []
    rw [hcond, if_neg (by simp)]
    cases hm : upd.status_message <;> simp [hm]

/-- Witness for C7 at the concrete pending transfer: re-submitting
`pending` twice. -/
theorem C7_noop_resubmission_witness :
    ∃ t', update_transfer transfer1000 ⟨some "pending", none, none, none⟩ 7 "Admin" = .ok t'
      ∧ t'.status = transfer1000.status
      ∧ t'.status_history.getD [] = transfer1000.status_history.getD []
      ∧ t'.processed_by = transfer1000.processed_by
      ∧ t'.completed_at = transfer1000.completed_at
      ∧ update_transfer t' ⟨some "pending", none, none, none⟩ 7 "Admin" = .ok t' :=
  C7_noop_resubmission transfer1000 ⟨some "pending", none, none, none⟩ 7 "Admin"
    (by decide) rfl

end XferSpec
